import Mathlib

/-!
Verification development for the photoshop-mcp request/response bridge.

The embedding covers the WebSocket bridge server
(packages/mcp-server/src/bridge/server.ts, class PhotoshopBridgeServer),
the dialing bridge client (packages/mcp-server/src/bridge/client.ts,
class PhotoshopBridge), and the UXP dispatch adapter
(packages/ps-uxp-bridge/main.js, handleMessage / sendResponse).

The server is modelled as an event-driven state machine: each event-loop
callback (send, inbound message, timer firing, connection, close, stop)
is a function from bridge state to a new state together with the outcomes
delivered to waiting callers and the frames written to the socket.
-/

namespace PsBridge

/-- Numeric value of a decimal digit character. -/
def charVal (c : Char) : Nat := c.toNat - 48

/-- Decimal digits, least significant digit first, with a structural fuel
argument; the fuel is always sufficient because n / 10 decreases. -/
def digitsRevFuel : Nat → Nat → List Char
  | 0, n => [Nat.digitChar n]
  | fuel + 1, n =>
    if n < 10 then [Nat.digitChar n]
    else Nat.digitChar (n % 10) :: digitsRevFuel fuel (n / 10)

/-- Decimal digits of a natural number, least significant digit first.
Models the JavaScript template-literal conversion of a number to its
decimal string representation. -/
def digitsRev (n : Nat) : List Char := digitsRevFuel n n

/-- Decimal string of a natural number, as produced by a JS template literal. -/
def natStr (n : Nat) : String := (digitsRev n).reverse.asString

/-- Value of a least-significant-first digit list. -/
def valRev : List Char → Nat
  | [] => 0
  | c :: cs => charVal c + 10 * valRev cs

/-- Request id as generated by send: the string req_ followed by the decimal
value of the incremented per-instance counter. -/
def mkId (n : Nat) : String := "req_" ++ natStr n

/-- The OPEN ready state of the ws package (WebSocket.OPEN = 1). -/
def WS_OPEN : Nat := 1

/-- REQUEST_TIMEOUT in server.ts and client.ts: 30000 milliseconds. -/
def REQUEST_TIMEOUT : Nat := 30000

/-- A transport connection handle. `connId` models the JavaScript object
identity of a ws socket (the `this.client === ws` comparison in the close
handler); `readyState` its WebSocket ready state. -/
structure Conn where
  connId : Nat
  readyState : Nat
  deriving DecidableEq

/-- Wire request `{id, command, params}` (BridgeRequest in server.ts).
Params are kept as an opaque association list; the bridge never inspects
them. -/
structure BridgeRequest where
  id : String
  command : String
  params : List (String × String)
  deriving DecidableEq

/-- The artifacts part of a response. -/
structure Artifacts where
  layerIds : Option (List Int)
  selectionRef : Option String
  deriving DecidableEq

/-- Wire response (BridgeResponse in server.ts). `data` is an opaque
payload blob. -/
structure BridgeResponse where
  id : String
  ok : Bool
  changed : Bool
  data : Option String
  artifacts : Option Artifacts
  warnings : Option (List String)
  error : Option String
  deriving DecidableEq

/-- What a send caller receives (ToolResponse in server.ts): a response
minus its id. -/
structure ToolResponse where
  ok : Bool
  changed : Bool
  data : Option String
  artifacts : Option Artifacts
  warnings : Option (List String)
  error : Option String
  deriving DecidableEq

/-- The resolve wrapper installed by send copies exactly these six fields
of the inbound response to the caller. -/
def toToolResponse (r : BridgeResponse) : ToolResponse :=
  { ok := r.ok, changed := r.changed, data := r.data,
    artifacts := r.artifacts, warnings := r.warnings, error := r.error }

/-- One pending-request-table entry. The stored continuations are
identified by the request id (each send call owns a unique id), so the
entry itself only needs to record the captured command. -/
structure PendingEntry where
  command : String
  deriving DecidableEq

/-- An armed setTimeout timer: the id and command captured by the timeout
callback created in send, and the delay it was armed with. -/
structure TimerRec where
  id : String
  command : String
  delayMs : Nat
  deriving DecidableEq

/-- State of one PhotoshopBridgeServer instance: the connection slot
`client`, the id counter `requestId`, the pending-request table (an
association list mirroring the Map), and the armed timers. -/
structure BridgeState where
  client : Option Conn
  requestId : Nat
  pending : List (String × PendingEntry)
  timers : List TimerRec
  deriving DecidableEq

/-- Observable outcome delivered to a caller of send: resolution with a
ToolResponse, rejection by the expiry timer, rejection on connection
close, or the synchronous throw when no client is connected. -/
inductive Outcome where
  | resolved (id : String) (resp : ToolResponse)
  | timedOut (id : String) (msg : String)
  | connClosed (id : String) (msg : String)
  | sendFailed (msg : String)
  deriving DecidableEq

/-- An inbound frame as seen through JSON.parse: either unparseable
garbage or a parsed response object. -/
inductive Inbound where
  | garbage (raw : String)
  | response (r : BridgeResponse)
  deriving DecidableEq

/-- Events processed by the server's event loop. `timerFire` delivers an
armed expiry timeout; `connection` a new inbound socket; `close` the close
event of the socket with the given identity; `stop` a call to
PhotoshopBridgeServer.stop. -/
inductive Event where
  | send (command : String) (params : List (String × String))
  | message (m : Inbound)
  | timerFire (id : String)
  | connection (c : Conn)
  | close (connId : Nat)
  | stop
  deriving DecidableEq

/-- Lookup in an association list (the Map.get of the pending table). -/
def lookupKey {β : Type} (id : String) : List (String × β) → Option β
  | [] => none
  | p :: rest => if p.1 = id then some p.2 else lookupKey id rest

/-- Removal by key (the Map.delete of the pending table). -/
def eraseKey {β : Type} (id : String) (l : List (String × β)) : List (String × β) :=
  l.filter (fun p => decide (p.1 ≠ id))

/-- Number of entries stored under a key. -/
def countKey {β : Type} (id : String) (l : List (String × β)) : Nat :=
  (l.filter (fun p => decide (p.1 = id))).length

/-- Lookup of an armed timer by its captured request id. -/
def lookupTimer (id : String) : List TimerRec → Option TimerRec
  | [] => none
  | t :: rest => if t.id = id then some t else lookupTimer id rest

/-- Cancellation of the timer armed for the given id (clearTimeout). -/
def clearTimer (id : String) (l : List TimerRec) : List TimerRec :=
  l.filter (fun t => decide (t.id ≠ id))

/-- Result of processing one event: the successor state, the outcomes
delivered to waiting callers, and the frames written to the socket. -/
structure StepOut where
  st : BridgeState
  outs : List Outcome
  writes : List BridgeRequest
  deriving DecidableEq

/-- The send method (server.ts lines 120-152). With no client stored, or a
client whose ready state is not OPEN, it throws `No UXP plugin connected`
synchronously. Otherwise it increments the counter, arms the 30 s timer,
inserts the pending entry and writes the serialized request. -/
def send (s : BridgeState) (command : String) (params : List (String × String)) : StepOut :=
  match s.client with
  | none => ⟨s, [Outcome.sendFailed "No UXP plugin connected"], []⟩
  | some c =>
    if c.readyState ≠ WS_OPEN then
      ⟨s, [Outcome.sendFailed "No UXP plugin connected"], []⟩
    else
      let id := mkId (s.requestId + 1)
      ⟨{ s with requestId := s.requestId + 1,
                pending := (id, ⟨command⟩) :: s.pending,
                timers := ⟨id, command, REQUEST_TIMEOUT⟩ :: s.timers },
       [], [⟨id, command, params⟩]⟩

/-- The handleMessage method (server.ts lines 154-169): parse failures and
unknown ids are logged and dropped; a matching id has its timer cleared,
its entry deleted, and its caller resolved with the parsed response. -/
def handleMessage (s : BridgeState) (m : Inbound) : StepOut :=
  match m with
  | .garbage _ => ⟨s, [], []⟩
  | .response r =>
    match lookupKey r.id s.pending with
    | some _ =>
      ⟨{ s with pending := eraseKey r.id s.pending,
                timers := clearTimer r.id s.timers },
       [Outcome.resolved r.id (toToolResponse r)], []⟩
    | none => ⟨s, [], []⟩

/-- Firing of an armed expiry timer: the setTimeout callback deletes its
own entry and rejects its caller with `Request timeout: <command>`. A
cleared timer never fires, so an id without an armed timer produces no
step. -/
def timerFire (s : BridgeState) (id : String) : StepOut :=
  match lookupTimer id s.timers with
  | none => ⟨s, [], []⟩
  | some t =>
    ⟨{ s with pending := eraseKey t.id s.pending,
              timers := clearTimer t.id s.timers },
     [Outcome.timedOut t.id ("Request timeout: " ++ t.command)], []⟩

/-- The rejectAllPending method (server.ts lines 171-177): clears every
pending entry's timer, rejects every pending caller with the given error
message, and clears the table. -/
def rejectAllPending (s : BridgeState) (msg : String) : StepOut :=
  ⟨{ s with pending := [],
            timers := s.timers.filter (fun t => (lookupKey t.id s.pending).isNone) },
   s.pending.map (fun p => Outcome.connClosed p.1 msg), []⟩

/-- The ws close handler (server.ts lines 82-88): only when the closing
socket is still the stored client is the slot cleared and every pending
call rejected with `Connection closed`. -/
def onClose (s : BridgeState) (connId : Nat) : StepOut :=
  match s.client with
  | some c =>
    if c.connId = connId then
      rejectAllPending { s with client := none } "Connection closed"
    else ⟨s, [], []⟩
  | none => ⟨s, [], []⟩

/-- The connection handler (server.ts lines 67-93): an already-stored
client is told to close (its close event arrives later, as a separate
event) and the slot is overwritten with the new socket. -/
def onConnection (s : BridgeState) (c : Conn) : StepOut :=
  ⟨{ s with client := some c }, [], []⟩

/-- The stop method (server.ts lines 105-114): closes the client socket
(whose close event arrives later) and nulls the slot at once. -/
def stop (s : BridgeState) : StepOut :=
  ⟨{ s with client := none }, [], []⟩

/-- One event-loop step of the bridge server. -/
def step (s : BridgeState) : Event → StepOut
  | .send command params => send s command params
  | .message m => handleMessage s m
  | .timerFire id => timerFire s id
  | .connection c => onConnection s c
  | .close connId => onClose s connId
  | .stop => stop s

/-- Processing of a whole event sequence, accumulating outcomes and
writes. -/
def run (s : BridgeState) : List Event → StepOut
  | [] => ⟨s, [], []⟩
  | e :: evs =>
    let r1 := step s e
    let r2 := run r1.st evs
    ⟨r2.st, r1.outs ++ r2.outs, r1.writes ++ r2.writes⟩

/-- Well-formedness of a bridge state: every pending key was formatted
from a counter value the instance has already reached, keys are distinct,
and the armed timers are exactly the pending entries' 30 s timers. -/
def WF (s : BridgeState) : Prop :=
  (∀ p ∈ s.pending, ∃ k, 0 < k ∧ k ≤ s.requestId ∧ p.1 = mkId k)
  ∧ (s.pending.map Prod.fst).Nodup
  ∧ s.timers = s.pending.map (fun p => ⟨p.1, p.2.command, REQUEST_TIMEOUT⟩)

/-- Whether an outcome settles the call with the given request id. The
synchronous NotConnected throw happens before a call is admitted and so
settles no admitted call. -/
def isFor (id : String) : Outcome → Bool
  | .resolved i _ => decide (i = id)
  | .timedOut i _ => decide (i = id)
  | .connClosed i _ => decide (i = id)
  | .sendFailed _ => false

/-- The outcomes of a run that settle the call with the given id. -/
def outcomesFor (id : String) (outs : List Outcome) : List Outcome :=
  outs.filter (isFor id)

/-- State of one PhotoshopBridge client instance (client.ts): the
`connected` flag, the stored socket, the id counter, the pending table and
the armed timers. -/
structure ClientState where
  connected : Bool
  ws : Option Conn
  requestId : Nat
  pending : List (String × PendingEntry)
  timers : List TimerRec
  deriving DecidableEq

/-- Result of one client-side event-loop callback. -/
structure ClientStepOut where
  st : ClientState
  outs : List Outcome
  writes : List BridgeRequest
  deriving DecidableEq

/-- The client send (client.ts lines 101-133): with the connected flag
false or no socket stored it throws `Not connected to Photoshop bridge`
synchronously; otherwise it increments the counter, arms the 30 s timer,
inserts the pending entry and writes the request. -/
def clientSend (s : ClientState) (command : String) (params : List (String × String)) :
    ClientStepOut :=
  if s.connected = false ∨ s.ws = none then
    ⟨s, [Outcome.sendFailed "Not connected to Photoshop bridge"], []⟩
  else
    ⟨{ s with requestId := s.requestId + 1,
              pending := (mkId (s.requestId + 1), ⟨command⟩) :: s.pending,
              timers := ⟨mkId (s.requestId + 1), command, REQUEST_TIMEOUT⟩ :: s.timers },
     [], [⟨mkId (s.requestId + 1), command, params⟩]⟩

/-- The client handleMessage (client.ts lines 135-150), textually the same
logic as the server's. -/
def clientHandleMessage (s : ClientState) (m : Inbound) : ClientStepOut :=
  match m with
  | .garbage _ => ⟨s, [], []⟩
  | .response r =>
    match lookupKey r.id s.pending with
    | some _ =>
      ⟨{ s with pending := eraseKey r.id s.pending,
                timers := clearTimer r.id s.timers },
       [Outcome.resolved r.id (toToolResponse r)], []⟩
    | none => ⟨s, [], []⟩

/-- A reply written back by the UXP plugin: the originating id spread
together with the handler's response fields (main.js sendResponse). -/
structure UxpReply where
  id : String
  body : ToolResponse
  deriving DecidableEq

/-- A UXP command handler either returns a response object or throws;
a throw is modelled as an Except error carrying the thrown message. -/
def UxpHandler : Type := List (String × String) → Except String ToolResponse

/-- An inbound frame on the UXP side: JSON.parse either throws on garbage
or yields a request object. -/
inductive UxpInbound where
  | garbage (raw : String)
  | request (r : BridgeRequest)

/-- The sendResponse function (main.js lines 759-767): when the socket is
open it writes the payload `{id, ...response}`, otherwise it logs and
drops the reply. -/
def sendResponse (wsOpen : Bool) (id : String) (resp : ToolResponse) : Option UxpReply :=
  if wsOpen then some ⟨id, resp⟩ else none

/-- The UXP handleMessage (main.js lines 720-754): a parse failure is
logged and dropped; an unknown command yields the Unknown-command error
response; a throwing handler is caught at this boundary and converted to
an error response; every reply carries the originating request's id. -/
def uxpHandleMessage (commands : String → Option UxpHandler) (wsOpen : Bool) :
    UxpInbound → Option UxpReply
  | .garbage _ => none
  | .request r =>
    match commands r.command with
    | none =>
      sendResponse wsOpen r.id
        ⟨false, false, none, none, none, some ("Unknown command: " ++ r.command)⟩
    | some h =>
      match h r.params with
      | .ok resp => sendResponse wsOpen r.id resp
      | .error msg => sendResponse wsOpen r.id ⟨false, false, none, none, none, some msg⟩

/-- Concrete start state for witnesses: a fresh instance with an open
client socket and an empty table. -/
def freshState : BridgeState := ⟨some ⟨0, 1⟩, 0, [], []⟩

/-- Concrete state with two pending calls, for the close-event witness. -/
def twoPendingState : BridgeState :=
  ⟨some ⟨7, 1⟩, 2,
   [(mkId 1, ⟨"layer.list"⟩), (mkId 2, ⟨"doc.info"⟩)],
   [⟨mkId 1, "layer.list", REQUEST_TIMEOUT⟩, ⟨mkId 2, "doc.info", REQUEST_TIMEOUT⟩]⟩

/-- Start state for the eviction scenario: socket 0 open, one pending
request req_1. -/
def evictState : BridgeState :=
  ⟨some ⟨0, 1⟩, 1, [(mkId 1, ⟨"layer.create"⟩)], [⟨mkId 1, "layer.create", REQUEST_TIMEOUT⟩]⟩

lemma charVal_digitChar (n : Nat) (h : n < 10) : charVal (Nat.digitChar n) = n := by
  interval_cases n <;> rfl

lemma valRev_digitsRevFuel :
    ∀ (fuel n : Nat), n ≤ fuel → valRev (digitsRevFuel fuel n) = n := by
  intro fuel
  induction fuel with
  | zero =>
    intro n hn
    have h0 : n = 0 := Nat.le_zero.mp hn
    subst h0
    decide
  | succ fuel ih =>
    intro n hn
    by_cases h : n < 10
    · simp [digitsRevFuel, h, valRev, charVal_digitChar n h]
    · have h1 : n % 10 < 10 := Nat.mod_lt _ (by omega)
      have h2 : n / 10 ≤ fuel := by omega
      simp [digitsRevFuel, h, valRev, charVal_digitChar _ h1, ih _ h2]
      omega

lemma valRev_digitsRev (n : Nat) : valRev (digitsRev n) = n :=
  valRev_digitsRevFuel n n (le_refl n)

lemma digitsRev_inj {m n : Nat} (h : digitsRev m = digitsRev n) : m = n := by
  have := congrArg valRev h
  simpa [valRev_digitsRev] using this

lemma natStr_inj {m n : Nat} (h : natStr m = natStr n) : m = n := by
  apply digitsRev_inj
  have hdat : (digitsRev m).reverse = (digitsRev n).reverse := by
    have := congrArg String.data h
    simpa [natStr, List.asString] using this
  simpa using congrArg List.reverse hdat

lemma mkId_inj {m n : Nat} (h : mkId m = mkId n) : m = n := by
  apply natStr_inj
  have hd := congrArg String.data h
  simp only [mkId, String.data_append] at hd
  have := List.append_cancel_left hd
  cases hm : natStr m with
  | mk dm =>
    cases hn : natStr n with
    | mk dn =>
      rw [hm, hn] at this
      simp at this
      rw [this]

lemma countKey_nil {β : Type} (id : String) : countKey id ([] : List (String × β)) = 0 := rfl

lemma countKey_cons {β : Type} (id : String) (p : String × β) (l : List (String × β)) :
    countKey id (p :: l) = (if p.1 = id then 1 else 0) + countKey id l := by
  by_cases h : p.1 = id <;> simp [countKey, List.filter_cons, h, Nat.add_comm]

lemma countKey_eq_zero_iff {β : Type} {id : String} {l : List (String × β)} :
    countKey id l = 0 ↔ ∀ p ∈ l, p.1 ≠ id := by
  induction l with
  | nil => simp [countKey_nil]
  | cons p l ih =>
    by_cases h : p.1 = id <;> simp [countKey_cons, h, ih]

lemma lookupKey_eq_none_iff {β : Type} {id : String} {l : List (String × β)} :
    lookupKey id l = none ↔ countKey id l = 0 := by
  induction l with
  | nil => simp [lookupKey, countKey_nil]
  | cons p l ih =>
    by_cases h : p.1 = id <;> simp [lookupKey, h, countKey_cons, ih]

lemma countKey_eraseKey_self {β : Type} (id : String) (l : List (String × β)) :
    countKey id (eraseKey id l) = 0 := by
  rw [countKey_eq_zero_iff]
  intro p hp
  have := List.of_mem_filter hp
  simpa using this

lemma countKey_eraseKey_ne {β : Type} {id j : String} (h : j ≠ id) (l : List (String × β)) :
    countKey id (eraseKey j l) = countKey id l := by
  unfold countKey eraseKey
  rw [List.filter_filter]
  congr 1
  apply List.filter_congr
  intro p _
  by_cases hp : p.1 = id
  · have hne : p.1 ≠ j := fun hc => h (by rw [← hc, hp])
    simp [hp, hne]
    exact fun hc => h hc.symm
  · simp [hp]

lemma lookupKey_eraseKey_self {β : Type} (id : String) (l : List (String × β)) :
    lookupKey id (eraseKey id l) = none := by
  rw [lookupKey_eq_none_iff]
  exact countKey_eraseKey_self id l

lemma lookupKey_eraseKey_ne {β : Type} {id j : String} (h : j ≠ id) (l : List (String × β)) :
    lookupKey j (eraseKey id l) = lookupKey j l := by
  induction l with
  | nil => rfl
  | cons p l ih =>
    by_cases hp : p.1 = id
    · have hne : ¬ p.1 = j := fun hc => h (by rw [← hc, hp])
      have hf : (eraseKey id (p :: l)) = eraseKey id l := by
        simp [eraseKey, List.filter_cons, hp]
      rw [hf, ih]
      simp [lookupKey, hne]
    · have hf : (eraseKey id (p :: l)) = p :: eraseKey id l := by
        simp [eraseKey, List.filter_cons, hp]
      rw [hf]
      by_cases hj : p.1 = j <;> simp [lookupKey, hj, ih]

lemma lookupKey_isSome_of_mem {β : Type} {p : String × β} {l : List (String × β)}
    (h : p ∈ l) : (lookupKey p.1 l).isSome = true := by
  induction l with
  | nil => simp at h
  | cons q l ih =>
    rcases List.mem_cons.mp h with h | h
    · subst h; simp [lookupKey]
    · by_cases hq : q.1 = p.1 <;> simp [lookupKey, hq, ih h]

lemma countKey_eq_one_of_lookup {β : Type} {id : String} {l : List (String × β)} {e : β}
    (hn : (l.map Prod.fst).Nodup) (h : lookupKey id l = some e) :
    countKey id l = 1 := by
  induction l with
  | nil => simp [lookupKey] at h
  | cons p l ih =>
    simp only [List.map_cons, List.nodup_cons] at hn
    by_cases hp : p.1 = id
    · have hz : countKey id l = 0 := by
        rw [countKey_eq_zero_iff]
        intro q hq hqid
        have hm : q.1 ∈ List.map Prod.fst l := List.mem_map_of_mem Prod.fst hq
        rw [hqid, ← hp] at hm
        exact hn.1 hm
      simp [countKey_cons, hp, hz]
    · simp only [lookupKey, hp, if_false] at h
      simp [countKey_cons, hp, ih hn.2 h]

lemma eraseKey_sublist {β : Type} (id : String) (l : List (String × β)) :
    List.Sublist (eraseKey id l) l := List.filter_sublist _

lemma nodup_eraseKey {β : Type} {l : List (String × β)}
    (h : (l.map Prod.fst).Nodup) (id : String) :
    ((eraseKey id l).map Prod.fst).Nodup :=
  h.sublist ((eraseKey_sublist id l).map Prod.fst)

lemma lookupTimer_id {id : String} {l : List TimerRec} {t : TimerRec}
    (h : lookupTimer id l = some t) : t.id = id := by
  induction l with
  | nil => simp [lookupTimer] at h
  | cons a l ih =>
    by_cases ha : a.id = id
    · simp only [lookupTimer, ha, if_true, Option.some.injEq] at h
      rw [← h]; exact ha
    · simp only [lookupTimer, ha, if_false] at h
      exact ih h

lemma lookupTimer_mem {id : String} {l : List TimerRec} {t : TimerRec}
    (h : lookupTimer id l = some t) : t ∈ l := by
  induction l with
  | nil => simp [lookupTimer] at h
  | cons a l ih =>
    by_cases ha : a.id = id
    · simp only [lookupTimer, ha, if_true, Option.some.injEq] at h
      rw [← h]; exact List.mem_cons_self a l
    · simp only [lookupTimer, ha, if_false] at h
      exact List.mem_cons_of_mem a (ih h)

lemma lookupTimer_map (id : String) (l : List (String × PendingEntry)) :
    lookupTimer id (l.map (fun p => ⟨p.1, p.2.command, REQUEST_TIMEOUT⟩)) =
      (lookupKey id l).map (fun e => (⟨id, e.command, REQUEST_TIMEOUT⟩ : TimerRec)) := by
  induction l with
  | nil => rfl
  | cons p l ih =>
    by_cases h : p.1 = id <;> simp [lookupTimer, lookupKey, h, ih]

lemma clearTimer_map (id : String) (l : List (String × PendingEntry)) :
    clearTimer id (l.map (fun p => ⟨p.1, p.2.command, REQUEST_TIMEOUT⟩)) =
      (eraseKey id l).map (fun p => ⟨p.1, p.2.command, REQUEST_TIMEOUT⟩) := by
  unfold clearTimer eraseKey
  rw [List.filter_map]
  rfl

lemma lookupTimer_eq_none_iff {id : String} {l : List TimerRec} :
    lookupTimer id l = none ↔ ∀ t ∈ l, t.id ≠ id := by
  induction l with
  | nil => simp [lookupTimer]
  | cons a l ih =>
    by_cases h : a.id = id <;> simp [lookupTimer, h, ih]

lemma lookupTimer_eq_none_of_clearTimer (id : String) (l : List TimerRec) :
    lookupTimer id (clearTimer id l) = none := by
  rw [lookupTimer_eq_none_iff]
  intro t ht
  have := List.of_mem_filter ht
  simpa using this

lemma send_connected_eq (s : BridgeState) (c : Conn) (command : String)
    (params : List (String × String))
    (hc : s.client = some c) (hrs : c.readyState = WS_OPEN) :
    send s command params =
      ⟨{ s with requestId := s.requestId + 1,
                pending := (mkId (s.requestId + 1), ⟨command⟩) :: s.pending,
                timers := ⟨mkId (s.requestId + 1), command, REQUEST_TIMEOUT⟩ :: s.timers },
       [], [⟨mkId (s.requestId + 1), command, params⟩]⟩ := by
  unfold send
  rw [hc]
  simp [hrs]

lemma send_disconnected_eq (s : BridgeState) (command : String)
    (params : List (String × String))
    (h : s.client = none ∨ ∃ c, s.client = some c ∧ c.readyState ≠ WS_OPEN) :
    send s command params = ⟨s, [Outcome.sendFailed "No UXP plugin connected"], []⟩ := by
  unfold send
  rcases h with h | ⟨c, hc, hrs⟩
  · rw [h]
  · rw [hc]
    simp [hrs]

lemma handleMessage_found_eq (s : BridgeState) (r : BridgeResponse) (e : PendingEntry)
    (h : lookupKey r.id s.pending = some e) :
    handleMessage s (.response r) =
      ⟨{ s with pending := eraseKey r.id s.pending, timers := clearTimer r.id s.timers },
       [Outcome.resolved r.id (toToolResponse r)], []⟩ := by
  simp only [handleMessage]
  rw [h]

lemma handleMessage_missing_eq (s : BridgeState) (r : BridgeResponse)
    (h : lookupKey r.id s.pending = none) :
    handleMessage s (.response r) = ⟨s, [], []⟩ := by
  simp only [handleMessage]
  rw [h]

lemma timerFire_armed_eq (s : BridgeState) (id : String) (t : TimerRec)
    (h : lookupTimer id s.timers = some t) :
    timerFire s id =
      ⟨{ s with pending := eraseKey t.id s.pending, timers := clearTimer t.id s.timers },
       [Outcome.timedOut t.id ("Request timeout: " ++ t.command)], []⟩ := by
  unfold timerFire
  rw [h]

lemma timerFire_clear_eq (s : BridgeState) (id : String)
    (h : lookupTimer id s.timers = none) :
    timerFire s id = ⟨s, [], []⟩ := by
  unfold timerFire
  rw [h]

lemma onClose_match_eq (s : BridgeState) (c : Conn) (hc : s.client = some c) :
    onClose s c.connId =
      ⟨{ s with client := none, pending := [],
                timers := s.timers.filter (fun t => (lookupKey t.id s.pending).isNone) },
       s.pending.map (fun p => Outcome.connClosed p.1 "Connection closed"), []⟩ := by
  unfold onClose rejectAllPending
  rw [hc]
  simp

lemma onClose_skip_eq (s : BridgeState) (connId : Nat)
    (h : s.client = none ∨ ∃ c, s.client = some c ∧ c.connId ≠ connId) :
    onClose s connId = ⟨s, [], []⟩ := by
  unfold onClose
  rcases h with h | ⟨c, hc, hne⟩
  · rw [h]
  · rw [hc]
    simp [hne]

/-- A newly generated id is fresh: it collides with no key in a
well-formed pending table. -/
lemma fresh_countKey (s : BridgeState) (hwf : WF s) :
    countKey (mkId (s.requestId + 1)) s.pending = 0 := by
  rw [countKey_eq_zero_iff]
  intro p hp hpid
  obtain ⟨k, hk, hkle, hkid⟩ := hwf.1 p hp
  rw [hkid] at hpid
  have := mkId_inj hpid
  omega

/-- Under well-formedness, the timer sweep of rejectAllPending cancels
every armed timer. -/
lemma rejectAll_timers_nil (s : BridgeState) (hwf : WF s) :
    s.timers.filter (fun t => (lookupKey t.id s.pending).isNone) = [] := by
  rw [List.filter_eq_nil_iff]
  intro t ht
  obtain ⟨-, -, heq⟩ := hwf
  rw [heq] at ht
  obtain ⟨p, hp, rfl⟩ := List.mem_map.mp ht
  have hs := lookupKey_isSome_of_mem hp
  cases hL : lookupKey p.1 s.pending with
  | none => rw [hL] at hs; simp at hs
  | some e => simp [hL]

lemma outcomesFor_nil (id : String) : outcomesFor id [] = [] := rfl

lemma outcomesFor_append (id : String) (a b : List Outcome) :
    outcomesFor id (a ++ b) = outcomesFor id a ++ outcomesFor id b :=
  List.filter_append a b

lemma length_outcomesFor_map_connClosed (id msg : String) (l : List (String × PendingEntry)) :
    (outcomesFor id (l.map (fun p => Outcome.connClosed p.1 msg))).length = countKey id l := by
  induction l with
  | nil => rfl
  | cons p l ih =>
    by_cases h : p.1 = id <;>
      simp [outcomesFor, isFor, List.filter_cons, h, countKey_cons] at * <;>
      omega

/-- Every event handler preserves well-formedness of the bridge state. -/
lemma step_WF (s : BridgeState) (e : Event) (hwf : WF s) : WF (step s e).st := by
  obtain ⟨h1, h2, h3⟩ := hwf
  cases e with
  | send command params =>
    simp only [step]
    rcases hc : s.client with _ | c
    · rw [send_disconnected_eq s command params (Or.inl hc)]
      exact ⟨h1, h2, h3⟩
    · by_cases hrs : c.readyState = WS_OPEN
      · rw [send_connected_eq s c command params hc hrs]
        refine ⟨?_, ?_, ?_⟩
        · intro p hp
          rcases List.mem_cons.mp hp with h | h
          · exact ⟨s.requestId + 1, by omega, le_refl _, by rw [h]⟩
          · obtain ⟨k, hk1, hk2, hk3⟩ := h1 p h
            exact ⟨k, hk1, hk2.trans (Nat.le_succ _), hk3⟩
        · rw [List.map_cons, List.nodup_cons]
          refine ⟨?_, h2⟩
          intro hmem
          obtain ⟨p, hp, hpid⟩ := List.mem_map.mp hmem
          have h0 := fresh_countKey s ⟨h1, h2, h3⟩
          rw [countKey_eq_zero_iff] at h0
          exact h0 p hp hpid
        · rw [h3]
          rfl
      · rw [send_disconnected_eq s command params (Or.inr ⟨c, hc, hrs⟩)]
        exact ⟨h1, h2, h3⟩
  | message m =>
    simp only [step]
    cases m with
    | garbage raw => exact ⟨h1, h2, h3⟩
    | response r =>
      cases hL : lookupKey r.id s.pending with
      | none =>
        rw [handleMessage_missing_eq s r hL]
        exact ⟨h1, h2, h3⟩
      | some e' =>
        rw [handleMessage_found_eq s r e' hL]
        refine ⟨?_, nodup_eraseKey h2 r.id, ?_⟩
        · intro p hp
          exact h1 p (List.mem_of_mem_filter hp)
        · rw [h3, clearTimer_map]
  | timerFire tid =>
    simp only [step]
    cases ht : lookupTimer tid s.timers with
    | none =>
      rw [timerFire_clear_eq s tid ht]
      exact ⟨h1, h2, h3⟩
    | some t =>
      rw [timerFire_armed_eq s tid t ht]
      refine ⟨?_, nodup_eraseKey h2 t.id, ?_⟩
      · intro p hp
        exact h1 p (List.mem_of_mem_filter hp)
      · rw [h3, clearTimer_map]
  | connection c =>
    simp only [step, onConnection]
    exact ⟨h1, h2, h3⟩
  | close connId =>
    simp only [step]
    rcases hc : s.client with _ | c
    · rw [onClose_skip_eq s connId (Or.inl hc)]
      exact ⟨h1, h2, h3⟩
    · by_cases hid : c.connId = connId
      · rw [← hid, onClose_match_eq s c hc]
        refine ⟨by simp, by simp, ?_⟩
        simp [rejectAll_timers_nil s ⟨h1, h2, h3⟩]
      · rw [onClose_skip_eq s connId (Or.inr ⟨c, hc, hid⟩)]
        exact ⟨h1, h2, h3⟩
  | stop =>
    simp only [step, stop]
    exact ⟨h1, h2, h3⟩

/-- No event handler ever decreases the request counter. -/
lemma step_requestId_mono (s : BridgeState) (e : Event) :
    s.requestId ≤ (step s e).st.requestId := by
  cases e with
  | send command params =>
    simp only [step]
    rcases hc : s.client with _ | c
    · rw [send_disconnected_eq s command params (Or.inl hc)]
    · by_cases hrs : c.readyState = WS_OPEN
      · rw [send_connected_eq s c command params hc hrs]
        exact Nat.le_succ _
      · rw [send_disconnected_eq s command params (Or.inr ⟨c, hc, hrs⟩)]
  | message m =>
    simp only [step]
    cases m with
    | garbage raw => exact le_refl _
    | response r =>
      cases hL : lookupKey r.id s.pending with
      | none => rw [handleMessage_missing_eq s r hL]
      | some e' => rw [handleMessage_found_eq s r e' hL]
  | timerFire tid =>
    simp only [step]
    cases ht : lookupTimer tid s.timers with
    | none => rw [timerFire_clear_eq s tid ht]
    | some t => rw [timerFire_armed_eq s tid t ht]
  | connection c => exact le_refl _
  | close connId =>
    simp only [step]
    rcases hc : s.client with _ | c
    · rw [onClose_skip_eq s connId (Or.inl hc)]
    · by_cases hid : c.connId = connId
      · rw [← hid, onClose_match_eq s c hc]
      · rw [onClose_skip_eq s connId (Or.inr ⟨c, hc, hid⟩)]
  | stop => exact le_refl _

/-- Conservation per step: for an id the instance has already generated,
the number of settling outcomes an event produces plus the number of
table entries afterwards equals the number of table entries before. -/
lemma step_count (s : BridgeState) (e : Event) (k : Nat)
    (hwf : WF s) (hk : 0 < k) (hkle : k ≤ s.requestId) :
    (outcomesFor (mkId k) (step s e).outs).length
      + countKey (mkId k) (step s e).st.pending
      = countKey (mkId k) s.pending := by
  obtain ⟨h1, h2, h3⟩ := hwf
  cases e with
  | send command params =>
    simp only [step]
    rcases hc : s.client with _ | c
    · rw [send_disconnected_eq s command params (Or.inl hc)]
      simp [outcomesFor, isFor]
    · by_cases hrs : c.readyState = WS_OPEN
      · rw [send_connected_eq s c command params hc hrs]
        have hne : mkId (s.requestId + 1) ≠ mkId k := by
          intro hcx
          have := mkId_inj hcx
          omega
        simp [outcomesFor, countKey_cons, hne]
      · rw [send_disconnected_eq s command params (Or.inr ⟨c, hc, hrs⟩)]
        simp [outcomesFor, isFor]
  | message m =>
    simp only [step]
    cases m with
    | garbage raw => simp [handleMessage, outcomesFor]
    | response r =>
      cases hL : lookupKey r.id s.pending with
      | none =>
        rw [handleMessage_missing_eq s r hL]
        simp [outcomesFor]
      | some e' =>
        rw [handleMessage_found_eq s r e' hL]
        by_cases hid : r.id = mkId k
        · have hcnt : countKey r.id s.pending = 1 := countKey_eq_one_of_lookup h2 hL
          rw [hid] at hcnt
          rw [hid, countKey_eraseKey_self]
          simp [outcomesFor, isFor, hcnt]
        · rw [countKey_eraseKey_ne hid]
          simp [outcomesFor, isFor, hid]
  | timerFire tid =>
    simp only [step]
    cases ht : lookupTimer tid s.timers with
    | none =>
      rw [timerFire_clear_eq s tid ht]
      simp [outcomesFor]
    | some t =>
      have htid : t.id = tid := lookupTimer_id ht
      have ht2 := ht
      rw [h3, lookupTimer_map] at ht2
      cases hL : lookupKey tid s.pending with
      | none =>
        rw [hL] at ht2
        simp at ht2
      | some e' =>
        rw [timerFire_armed_eq s tid t ht, htid]
        by_cases hid : tid = mkId k
        · have hcnt : countKey tid s.pending = 1 := countKey_eq_one_of_lookup h2 hL
          rw [hid] at hcnt
          rw [hid, countKey_eraseKey_self]
          simp [outcomesFor, isFor, hid, hcnt]
        · rw [countKey_eraseKey_ne hid]
          simp [outcomesFor, isFor, hid]
  | connection c =>
    simp only [step, onConnection]
    simp [outcomesFor]
  | close connId =>
    simp only [step]
    rcases hc : s.client with _ | c
    · rw [onClose_skip_eq s connId (Or.inl hc)]
      simp [outcomesFor]
    · by_cases hid : c.connId = connId
      · rw [← hid, onClose_match_eq s c hc]
        have := length_outcomesFor_map_connClosed (mkId k) "Connection closed" s.pending
        simp [this, countKey_nil]
      · rw [onClose_skip_eq s connId (Or.inr ⟨c, hc, hid⟩)]
        simp [outcomesFor]
  | stop =>
    simp only [step, stop]
    simp [outcomesFor]

/-- Conservation over a whole event sequence, together with preservation
of well-formedness and monotonicity of the counter. -/
lemma run_invariant (evs : List Event) (s : BridgeState) (k : Nat)
    (hwf : WF s) (hk : 0 < k) (hkle : k ≤ s.requestId) :
    WF (run s evs).st ∧ k ≤ (run s evs).st.requestId ∧
      (outcomesFor (mkId k) (run s evs).outs).length
        + countKey (mkId k) (run s evs).st.pending
        = countKey (mkId k) s.pending := by
  induction evs generalizing s with
  | nil => exact ⟨hwf, hkle, by simp [run, outcomesFor]⟩
  | cons e evs ih =>
    have hWF1 := step_WF s e hwf
    have hmono := step_requestId_mono s e
    have hcnt := step_count s e k hwf hk hkle
    obtain ⟨ih1, ih2, ih3⟩ := ih (step s e).st hWF1 (le_trans hkle hmono)
    refine ⟨?_, ?_, ?_⟩
    · simpa [run] using ih1
    · simpa [run] using ih2
    · simp only [run]
      rw [outcomesFor_append, List.length_append]
      omega

/-- C1: a request admitted by send while the connection is open settles
in exactly one of the three ways: matching response, expiry timeout, or
connection close. Over every subsequent event sequence the number of
settling outcomes delivered for the new request's id plus the number of
its remaining table entries is exactly one — never two outcomes, and
exactly one outcome once the entry has left the table — and while the
entry is still pending its expiry timer stays armed, so a settling event
always remains available. -/
theorem admitted_send_settles_exactly_once
    (s : BridgeState) (c : Conn) (command : String) (params : List (String × String))
    (evs : List Event) (hwf : WF s)
    (hc : s.client = some c) (hopen : c.readyState = WS_OPEN) :
    (outcomesFor (mkId (s.requestId + 1))
        (run (send s command params).st evs).outs).length
      + countKey (mkId (s.requestId + 1))
          (run (send s command params).st evs).st.pending = 1
    ∧ (countKey (mkId (s.requestId + 1))
          (run (send s command params).st evs).st.pending = 1 →
        (lookupTimer (mkId (s.requestId + 1))
          (run (send s command params).st evs).st.timers).isSome = true) := by
  have hsend := send_connected_eq s c command params hc hopen
  have hWF1 : WF (send s command params).st := by
    have h := step_WF s (.send command params) hwf
    simpa [step] using h
  have hcnt1 : countKey (mkId (s.requestId + 1)) (send s command params).st.pending = 1 := by
    rw [hsend]
    show countKey (mkId (s.requestId + 1))
      ((mkId (s.requestId + 1), ⟨command⟩) :: s.pending) = 1
    rw [countKey_cons]
    simp [fresh_countKey s hwf]
  have hrid : s.requestId + 1 ≤ (send s command params).st.requestId := by
    rw [hsend]
  obtain ⟨hWFr, hkler, hcons⟩ :=
    run_invariant evs (send s command params).st (s.requestId + 1) hWF1 (by omega) hrid
  rw [hcnt1] at hcons
  refine ⟨hcons, ?_⟩
  intro hp1
  obtain ⟨-, -, h3r⟩ := hWFr
  rw [h3r, lookupTimer_map]
  cases hL : lookupKey (mkId (s.requestId + 1))
      (run (send s command params).st evs).st.pending with
  | none =>
    rw [lookupKey_eq_none_iff] at hL
    omega
  | some e => simp

theorem admitted_send_settles_exactly_once_witness :
    (outcomesFor (mkId (freshState.requestId + 1))
        (run (send freshState "doc.get" []).st [Event.timerFire (mkId 1)]).outs).length
      + countKey (mkId (freshState.requestId + 1))
          (run (send freshState "doc.get" []).st [Event.timerFire (mkId 1)]).st.pending = 1
    ∧ (countKey (mkId (freshState.requestId + 1))
          (run (send freshState "doc.get" []).st [Event.timerFire (mkId 1)]).st.pending = 1 →
        (lookupTimer (mkId (freshState.requestId + 1))
          (run (send freshState "doc.get" []).st [Event.timerFire (mkId 1)]).st.timers).isSome
          = true) :=
  admitted_send_settles_exactly_once freshState ⟨0, 1⟩ "doc.get" []
    [Event.timerFire (mkId 1)]
    ⟨by intro p hp; simp [freshState] at hp, by simp [freshState], rfl⟩
    rfl rfl

/-- C2: when the stored client's socket emits its close event, every
pending caller is rejected with the Connection closed error, every armed
timer is cancelled, the slot is cleared, and the pending table is empty
afterwards — for every well-formed state, i.e. every population of the
table. -/
theorem close_rejects_all_pending (s : BridgeState) (c : Conn)
    (hwf : WF s) (hc : s.client = some c) :
    (onClose s c.connId).st.pending = []
    ∧ (onClose s c.connId).st.timers = []
    ∧ (onClose s c.connId).st.client = none
    ∧ (onClose s c.connId).outs
        = s.pending.map (fun p => Outcome.connClosed p.1 "Connection closed") := by
  rw [onClose_match_eq s c hc]
  exact ⟨rfl, rejectAll_timers_nil s hwf, rfl, rfl⟩

lemma twoPendingState_WF : WF twoPendingState := by
  refine ⟨?_, ?_, rfl⟩
  · intro p hp
    simp [twoPendingState] at hp
    rcases hp with hp | hp
    · exact ⟨1, by omega, by decide, by rw [hp]⟩
    · exact ⟨2, by omega, by decide, by rw [hp]⟩
  · simp [twoPendingState]
    intro h
    have := mkId_inj h
    omega

theorem close_rejects_all_pending_witness :
    (onClose twoPendingState 7).st.pending = []
    ∧ (onClose twoPendingState 7).st.timers = []
    ∧ (onClose twoPendingState 7).st.client = none
    ∧ (onClose twoPendingState 7).outs
        = [Outcome.connClosed (mkId 1) "Connection closed",
           Outcome.connClosed (mkId 2) "Connection closed"] := by
  have h := close_rejects_all_pending twoPendingState ⟨7, 1⟩ twoPendingState_WF rfl
  exact ⟨h.1, h.2.1, h.2.2.1, by rw [h.2.2.2]; rfl⟩

/-- C3 counterexample: a second connection (socket 1) arrives while socket
0 is open with req_1 pending, then socket 0's close event is delivered.
The claim says the pending call fails with ConnectionClosed; in fact the
close handler's guard compares the closing socket against the
already-replaced slot, rejectAllPending never runs, no outcome at all is
delivered, and req_1 is still pending with its timer still armed. -/
theorem eviction_keeps_pending_counterexample :
    (run evictState [Event.connection ⟨1, 1⟩, Event.close 0]).outs = []
    ∧ lookupKey (mkId 1) (run evictState [Event.connection ⟨1, 1⟩, Event.close 0]).st.pending
        = some ⟨"layer.create"⟩
    ∧ (run evictState [Event.connection ⟨1, 1⟩, Event.close 0]).st.timers
        = [⟨mkId 1, "layer.create", REQUEST_TIMEOUT⟩] := by
  refine ⟨rfl, ?_, rfl⟩
  simp [run, step, onConnection, onClose, evictState, lookupKey]

/-- C3 amended: a second inbound connection while one is open replaces the
first socket in the slot, and a send issued over the new connection is
admitted immediately (entry created, frame written); but the calls
pending on the first connection are not rejected at eviction: the evicted
socket's later close event finds the slot holding the new socket, the
close handler's guard fails, no ConnectionClosed outcome is delivered,
and the old entries stay pending until their own timers fire. -/
theorem eviction_amended (s : BridgeState) (c c' : Conn) (command : String)
    (params : List (String × String))
    (hc : s.client = some c) (hne : c'.connId ≠ c.connId)
    (hopen : c'.readyState = WS_OPEN) :
    (onConnection s c').st = { s with client := some c' }
    ∧ (onClose (onConnection s c').st c.connId).st = { s with client := some c' }
    ∧ (onClose (onConnection s c').st c.connId).outs = []
    ∧ (send (onClose (onConnection s c').st c.connId).st command params).st.pending
        = (mkId (s.requestId + 1), ⟨command⟩) :: s.pending
    ∧ (send (onClose (onConnection s c').st c.connId).st command params).writes
        = [⟨mkId (s.requestId + 1), command, params⟩] := by
  have hskip : onClose ({ s with client := some c' } : BridgeState) c.connId
      = ⟨{ s with client := some c' }, [], []⟩ :=
    onClose_skip_eq _ c.connId (Or.inr ⟨c', rfl, hne⟩)
  have hsend := send_connected_eq ({ s with client := some c' } : BridgeState)
    c' command params rfl hopen
  refine ⟨rfl, ?_, ?_, ?_, ?_⟩
  · show (onClose ({ s with client := some c' } : BridgeState) c.connId).st = _
    rw [hskip]
  · show (onClose ({ s with client := some c' } : BridgeState) c.connId).outs = _
    rw [hskip]
  · show (send (onClose ({ s with client := some c' } : BridgeState) c.connId).st
      command params).st.pending = _
    rw [hskip]
    show (send ({ s with client := some c' } : BridgeState) command params).st.pending = _
    rw [hsend]
  · show (send (onClose ({ s with client := some c' } : BridgeState) c.connId).st
      command params).writes = _
    rw [hskip]
    show (send ({ s with client := some c' } : BridgeState) command params).writes = _
    rw [hsend]

theorem eviction_amended_witness :
    (onConnection evictState ⟨1, 1⟩).st = { evictState with client := some ⟨1, 1⟩ }
    ∧ (onClose (onConnection evictState ⟨1, 1⟩).st 0).st
        = { evictState with client := some ⟨1, 1⟩ }
    ∧ (onClose (onConnection evictState ⟨1, 1⟩).st 0).outs = []
    ∧ (send (onClose (onConnection evictState ⟨1, 1⟩).st 0).st "layer.list" []).st.pending
        = (mkId (evictState.requestId + 1), ⟨"layer.list"⟩) :: evictState.pending
    ∧ (send (onClose (onConnection evictState ⟨1, 1⟩).st 0).st "layer.list" []).writes
        = [⟨mkId (evictState.requestId + 1), "layer.list", []⟩] :=
  eviction_amended evictState ⟨0, 1⟩ ⟨1, 1⟩ "layer.list" [] rfl (by decide) rfl

/-- C4: send invoked with no open connection fails synchronously with the
NotConnected error and nothing else happens: no pending entry created, no
timer armed, no frame written, no state change — so the failure is never
a Timeout and the call is not buffered or queued. Both guard shapes are
covered: the listener bridge (no client stored, or socket not OPEN) and
the dialer bridge (connected flag false, or no socket stored). -/
theorem send_not_connected (s : BridgeState) (cs : ClientState)
    (command : String) (params : List (String × String))
    (h : s.client = none ∨ ∃ c, s.client = some c ∧ c.readyState ≠ WS_OPEN)
    (h' : cs.connected = false ∨ cs.ws = none) :
    send s command params = ⟨s, [Outcome.sendFailed "No UXP plugin connected"], []⟩
    ∧ clientSend cs command params
        = ⟨cs, [Outcome.sendFailed "Not connected to Photoshop bridge"], []⟩ := by
  refine ⟨send_disconnected_eq s command params h, ?_⟩
  unfold clientSend
  rw [if_pos h']

theorem send_not_connected_witness :
    send ⟨none, 0, [], []⟩ "doc.get" []
        = ⟨⟨none, 0, [], []⟩, [Outcome.sendFailed "No UXP plugin connected"], []⟩
    ∧ clientSend ⟨false, none, 0, [], []⟩ "doc.get" []
        = ⟨⟨false, none, 0, [], []⟩,
           [Outcome.sendFailed "Not connected to Photoshop bridge"], []⟩ :=
  send_not_connected ⟨none, 0, [], []⟩ ⟨false, none, 0, [], []⟩ "doc.get" []
    (Or.inl rfl) (Or.inl rfl)

/-- C5: the per-call deadline is the single REQUEST_TIMEOUT constant of
30000 milliseconds, armed for every call; when the timer for an id fires,
the caller is rejected with a Timeout error whose message is
`Request timeout: ` followed by that call's command name, and only that
id's entry is removed from the table — lookups of every other id are
unchanged. -/
theorem timeout_contract (s : BridgeState) (id : String) (t : TimerRec)
    (hwf : WF s) (ht : lookupTimer id s.timers = some t) :
    REQUEST_TIMEOUT = 30000
    ∧ t.delayMs = REQUEST_TIMEOUT
    ∧ (∀ e, lookupKey id s.pending = some e →
        (timerFire s id).outs = [Outcome.timedOut id ("Request timeout: " ++ e.command)])
    ∧ (timerFire s id).st.pending = eraseKey id s.pending
    ∧ lookupKey id (timerFire s id).st.pending = none
    ∧ (∀ j, j ≠ id → lookupKey j (timerFire s id).st.pending = lookupKey j s.pending) := by
  obtain ⟨h1, h2, h3⟩ := hwf
  have htid : t.id = id := lookupTimer_id ht
  have ht2 := ht
  rw [h3, lookupTimer_map] at ht2
  cases hL : lookupKey id s.pending with
  | none =>
    rw [hL] at ht2
    simp at ht2
  | some e0 =>
    rw [hL] at ht2
    have hteq : t = ⟨id, e0.command, REQUEST_TIMEOUT⟩ :=
      (Option.some.inj ht2).symm
    have harm := timerFire_armed_eq s id t ht
    refine ⟨rfl, by rw [hteq], ?_, ?_, ?_, ?_⟩
    · intro e he
      cases he
      rw [harm, hteq]
    · rw [harm, htid]
    · rw [harm, htid]
      show lookupKey id (eraseKey id s.pending) = none
      exact lookupKey_eraseKey_self id s.pending
    · intro j hj
      rw [harm, htid]
      show lookupKey j (eraseKey id s.pending) = lookupKey j s.pending
      exact lookupKey_eraseKey_ne hj s.pending

theorem timeout_contract_witness :
    REQUEST_TIMEOUT = 30000
    ∧ (⟨mkId 1, "layer.list", REQUEST_TIMEOUT⟩ : TimerRec).delayMs = REQUEST_TIMEOUT
    ∧ (∀ e, lookupKey (mkId 1) twoPendingState.pending = some e →
        (timerFire twoPendingState (mkId 1)).outs
          = [Outcome.timedOut (mkId 1) ("Request timeout: " ++ e.command)])
    ∧ (timerFire twoPendingState (mkId 1)).st.pending
        = eraseKey (mkId 1) twoPendingState.pending
    ∧ lookupKey (mkId 1) (timerFire twoPendingState (mkId 1)).st.pending = none
    ∧ (∀ j, j ≠ mkId 1 →
        lookupKey j (timerFire twoPendingState (mkId 1)).st.pending
          = lookupKey j twoPendingState.pending) :=
  timeout_contract twoPendingState (mkId 1) ⟨mkId 1, "layer.list", REQUEST_TIMEOUT⟩
    twoPendingState_WF (by simp [twoPendingState, lookupTimer])

lemma countKey_le_one_of_nodup {β : Type} {l : List (String × β)}
    (h : (l.map Prod.fst).Nodup) (id : String) : countKey id l ≤ 1 := by
  induction l with
  | nil => simp [countKey_nil]
  | cons p l ih =>
    simp only [List.map_cons, List.nodup_cons] at h
    by_cases hp : p.1 = id
    · have hz : countKey id l = 0 := by
        rw [countKey_eq_zero_iff]
        intro q hq hqid
        have hm : q.1 ∈ List.map Prod.fst l := List.mem_map_of_mem Prod.fst hq
        rw [hqid, ← hp] at hm
        exact h.1 hm
      rw [countKey_cons, hz]
      simp [hp]
    · rw [countKey_cons]
      simp only [hp, if_false]
      simpa using ih h.2

/-- C6: the receive loop is total. A message that fails to parse is
logged and dropped: no state change, no outcome, no crash. A parsed
response whose id matches no pending entry is likewise dropped: no state
change, no outcome, no caller resolved or rejected. This holds for the
listener bridge and for the textually identical dialer bridge client. -/
theorem handleMessage_total (s : BridgeState) (cs : ClientState) (raw : String)
    (r r' : BridgeResponse)
    (h : lookupKey r.id s.pending = none) (h' : lookupKey r'.id cs.pending = none) :
    handleMessage s (.garbage raw) = ⟨s, [], []⟩
    ∧ handleMessage s (.response r) = ⟨s, [], []⟩
    ∧ clientHandleMessage cs (.garbage raw) = ⟨cs, [], []⟩
    ∧ clientHandleMessage cs (.response r') = ⟨cs, [], []⟩ := by
  refine ⟨rfl, handleMessage_missing_eq s r h, rfl, ?_⟩
  simp only [clientHandleMessage]
  rw [h']

theorem handleMessage_total_witness :
    handleMessage twoPendingState (.garbage "not json") = ⟨twoPendingState, [], []⟩
    ∧ handleMessage twoPendingState
        (.response ⟨"req_99", true, false, none, none, none, none⟩)
        = ⟨twoPendingState, [], []⟩
    ∧ clientHandleMessage ⟨true, some ⟨0, 1⟩, 0, [], []⟩ (.garbage "not json")
        = ⟨⟨true, some ⟨0, 1⟩, 0, [], []⟩, [], []⟩
    ∧ clientHandleMessage ⟨true, some ⟨0, 1⟩, 0, [], []⟩
        (.response ⟨"req_99", true, false, none, none, none, none⟩)
        = ⟨⟨true, some ⟨0, 1⟩, 0, [], []⟩, [], []⟩ :=
  handleMessage_total twoPendingState ⟨true, some ⟨0, 1⟩, 0, [], []⟩ "not json"
    ⟨"req_99", true, false, none, none, none, none⟩
    ⟨"req_99", true, false, none, none, none, none⟩
    (by decide) rfl

/-- C7: an inbound response whose id matches a pending entry resolves the
waiting caller with exactly the six response fields ok, changed, data,
artifacts, warnings, error copied verbatim, cancels the entry's expiry
timer, and removes only that entry from the table. -/
theorem matched_response_resolves (s : BridgeState) (r : BridgeResponse) (e : PendingEntry)
    (h : lookupKey r.id s.pending = some e) :
    (handleMessage s (.response r)).outs
      = [Outcome.resolved r.id ⟨r.ok, r.changed, r.data, r.artifacts, r.warnings, r.error⟩]
    ∧ (handleMessage s (.response r)).st.pending = eraseKey r.id s.pending
    ∧ lookupKey r.id (handleMessage s (.response r)).st.pending = none
    ∧ lookupTimer r.id (handleMessage s (.response r)).st.timers = none
    ∧ (∀ j, j ≠ r.id →
        lookupKey j (handleMessage s (.response r)).st.pending = lookupKey j s.pending) := by
  have hf := handleMessage_found_eq s r e h
  refine ⟨by rw [hf]; rfl, by rw [hf], ?_, ?_, ?_⟩
  · rw [hf]
    show lookupKey r.id (eraseKey r.id s.pending) = none
    exact lookupKey_eraseKey_self _ _
  · rw [hf]
    show lookupTimer r.id (clearTimer r.id s.timers) = none
    exact lookupTimer_eq_none_of_clearTimer _ _
  · intro j hj
    rw [hf]
    show lookupKey j (eraseKey r.id s.pending) = lookupKey j s.pending
    exact lookupKey_eraseKey_ne hj _

theorem matched_response_resolves_witness :
    (handleMessage twoPendingState
        (.response ⟨mkId 1, true, true, some "blob", some ⟨some [3], some "sel"⟩,
          some ["slow"], none⟩)).outs
      = [Outcome.resolved (mkId 1)
          ⟨true, true, some "blob", some ⟨some [3], some "sel"⟩, some ["slow"], none⟩]
    ∧ (handleMessage twoPendingState
        (.response ⟨mkId 1, true, true, some "blob", some ⟨some [3], some "sel"⟩,
          some ["slow"], none⟩)).st.pending
        = eraseKey (mkId 1) twoPendingState.pending
    ∧ lookupKey (mkId 1) (handleMessage twoPendingState
        (.response ⟨mkId 1, true, true, some "blob", some ⟨some [3], some "sel"⟩,
          some ["slow"], none⟩)).st.pending = none
    ∧ lookupTimer (mkId 1) (handleMessage twoPendingState
        (.response ⟨mkId 1, true, true, some "blob", some ⟨some [3], some "sel"⟩,
          some ["slow"], none⟩)).st.timers = none
    ∧ (∀ j, j ≠ mkId 1 →
        lookupKey j (handleMessage twoPendingState
          (.response ⟨mkId 1, true, true, some "blob", some ⟨some [3], some "sel"⟩,
            some ["slow"], none⟩)).st.pending
          = lookupKey j twoPendingState.pending) :=
  matched_response_resolves twoPendingState
    ⟨mkId 1, true, true, some "blob", some ⟨some [3], some "sel"⟩, some ["slow"], none⟩
    ⟨"layer.list"⟩ (by simp [twoPendingState, lookupKey])

/-- C8: request ids come from a strictly increasing per-instance counter
formatted into a string: an admitted send increments the counter by one,
writes a frame whose id is the formatted new counter value, that id
differs from the id of every counter value the instance used before (so
from every pending key), well-formedness is preserved, and the table
never holds two entries under one id. -/
theorem request_ids_unique (s : BridgeState) (c : Conn) (command : String)
    (params : List (String × String))
    (hwf : WF s) (hc : s.client = some c) (hopen : c.readyState = WS_OPEN) :
    (send s command params).st.requestId = s.requestId + 1
    ∧ (send s command params).writes = [⟨mkId (s.requestId + 1), command, params⟩]
    ∧ (∀ k, 0 < k → k ≤ s.requestId → mkId (s.requestId + 1) ≠ mkId k)
    ∧ countKey (mkId (s.requestId + 1)) s.pending = 0
    ∧ WF (send s command params).st
    ∧ (∀ id, countKey id (send s command params).st.pending ≤ 1) := by
  have hsend := send_connected_eq s c command params hc hopen
  have hWF1 : WF (send s command params).st := by
    have h := step_WF s (.send command params) hwf
    simpa [step] using h
  refine ⟨by rw [hsend], by rw [hsend], ?_, fresh_countKey s hwf, hWF1, ?_⟩
  · intro k hk hkle hcx
    have := mkId_inj hcx
    omega
  · intro id
    exact countKey_le_one_of_nodup hWF1.2.1 id

theorem request_ids_unique_witness :
    (send twoPendingState "image.crop" []).st.requestId = twoPendingState.requestId + 1
    ∧ (send twoPendingState "image.crop" []).writes
        = [⟨mkId (twoPendingState.requestId + 1), "image.crop", []⟩]
    ∧ (∀ k, 0 < k → k ≤ twoPendingState.requestId →
        mkId (twoPendingState.requestId + 1) ≠ mkId k)
    ∧ countKey (mkId (twoPendingState.requestId + 1)) twoPendingState.pending = 0
    ∧ WF (send twoPendingState "image.crop" []).st
    ∧ (∀ id, countKey id (send twoPendingState "image.crop" []).st.pending ≤ 1) :=
  request_ids_unique twoPendingState ⟨7, 1⟩ "image.crop" [] twoPendingState_WF rfl rfl

lemma sendResponse_id (wsOpen : Bool) (id : String) (resp : ToolResponse) (reply : UxpReply)
    (h : sendResponse wsOpen id resp = some reply) : reply.id = id := by
  cases wsOpen with
  | false => simp [sendResponse] at h
  | true =>
    have h2 : (⟨id, resp⟩ : UxpReply) = reply := Option.some.inj h
    rw [← h2]

lemma uxpHandleMessage_unknown (commands : String → Option UxpHandler) (wsOpen : Bool)
    (r : BridgeRequest) (h : commands r.command = none) :
    uxpHandleMessage commands wsOpen (.request r)
      = sendResponse wsOpen r.id
          ⟨false, false, none, none, none, some ("Unknown command: " ++ r.command)⟩ := by
  simp only [uxpHandleMessage]
  rw [h]

lemma uxpHandleMessage_handler (commands : String → Option UxpHandler) (wsOpen : Bool)
    (r : BridgeRequest) (hh : UxpHandler) (h : commands r.command = some hh) :
    uxpHandleMessage commands wsOpen (.request r)
      = (match hh r.params with
         | .ok resp => sendResponse wsOpen r.id resp
         | .error msg =>
           sendResponse wsOpen r.id ⟨false, false, none, none, none, some msg⟩) := by
  simp only [uxpHandleMessage]
  rw [h]

/-- C9: the dispatch adapter never lets a handler failure escape. A
request whose command is not in the table is answered with the response
`{ok := false, changed := false, error := Unknown command: <command>}`; a
handler that throws has its exception caught and converted to
`{ok := false, changed := false, error := <message>}`; a handler that
returns normally has its response forwarded; in every case the reply
written back carries the originating request's id, and the adapter itself
is a total function (parse failures are dropped, never propagated). -/
theorem dispatch_never_throws (commands : String → Option UxpHandler) (wsOpen : Bool)
    (r : BridgeRequest) :
    (∀ reply, uxpHandleMessage commands wsOpen (.request r) = some reply → reply.id = r.id)
    ∧ (commands r.command = none →
        uxpHandleMessage commands wsOpen (.request r)
          = sendResponse wsOpen r.id
              ⟨false, false, none, none, none, some ("Unknown command: " ++ r.command)⟩)
    ∧ (∀ hh msg, commands r.command = some hh → hh r.params = .error msg →
        uxpHandleMessage commands wsOpen (.request r)
          = sendResponse wsOpen r.id ⟨false, false, none, none, none, some msg⟩)
    ∧ (∀ hh resp, commands r.command = some hh → hh r.params = .ok resp →
        uxpHandleMessage commands wsOpen (.request r) = sendResponse wsOpen r.id resp) := by
  refine ⟨?_, ?_, ?_, ?_⟩
  · intro reply hrep
    cases hcmd : commands r.command with
    | none =>
      rw [uxpHandleMessage_unknown commands wsOpen r hcmd] at hrep
      exact sendResponse_id wsOpen r.id _ reply hrep
    | some hh =>
      rw [uxpHandleMessage_handler commands wsOpen r hh hcmd] at hrep
      cases hres : hh r.params with
      | ok resp =>
        rw [hres] at hrep
        exact sendResponse_id wsOpen r.id _ reply hrep
      | error msg =>
        rw [hres] at hrep
        exact sendResponse_id wsOpen r.id _ reply hrep
  · intro hcmd
    exact uxpHandleMessage_unknown commands wsOpen r hcmd
  · intro hh msg hcmd hres
    rw [uxpHandleMessage_handler commands wsOpen r hh hcmd, hres]
  · intro hh resp hcmd hres
    rw [uxpHandleMessage_handler commands wsOpen r hh hcmd, hres]

theorem dispatch_never_throws_witness :
    uxpHandleMessage (fun _ => none) true (.request ⟨"req_9", "unknown.thing", []⟩)
      = some ⟨"req_9",
          ⟨false, false, none, none, none, some "Unknown command: unknown.thing"⟩⟩ := by
  have h := (dispatch_never_throws (fun _ => none) true
    ⟨"req_9", "unknown.thing", []⟩).2.1 rfl
  rw [h]
  rfl

/-- C10: stop() nulls the client slot synchronously, before the socket's
close event can be delivered; when the close event then arrives, the
handler's guard (stored client identical to the closing socket) fails, so
rejectAllPending is never invoked: no outcome is delivered, every pending
entry stays in the table with its timer still armed, and such a caller is
later rejected only by its own 30 s expiry with the Request-timeout
message, never with the Connection closed error. -/
theorem stop_leaves_pending_until_timeout (s : BridgeState) (c : Conn)
    (hwf : WF s) (hc : s.client = some c) :
    (stop s).st = { s with client := none }
    ∧ (stop s).outs = []
    ∧ onClose (stop s).st c.connId = ⟨{ s with client := none }, [], []⟩
    ∧ (onClose (stop s).st c.connId).st.pending = s.pending
    ∧ (onClose (stop s).st c.connId).st.timers = s.timers
    ∧ (∀ id e, lookupKey id s.pending = some e →
        (timerFire (onClose (stop s).st c.connId).st id).outs
          = [Outcome.timedOut id ("Request timeout: " ++ e.command)]) := by
  have hskip : onClose ({ s with client := none } : BridgeState) c.connId
      = ⟨{ s with client := none }, [], []⟩ :=
    onClose_skip_eq _ c.connId (Or.inl rfl)
  refine ⟨rfl, rfl, hskip, ?_, ?_, ?_⟩
  · show (onClose ({ s with client := none } : BridgeState) c.connId).st.pending = s.pending
    rw [hskip]
  · show (onClose ({ s with client := none } : BridgeState) c.connId).st.timers = s.timers
    rw [hskip]
  · intro id e he
    show (timerFire (onClose ({ s with client := none } : BridgeState) c.connId).st id).outs
      = _
    rw [hskip]
    show (timerFire ({ s with client := none } : BridgeState) id).outs = _
    obtain ⟨h1, h2, h3⟩ := hwf
    have ht : lookupTimer id ({ s with client := none } : BridgeState).timers
        = some ⟨id, e.command, REQUEST_TIMEOUT⟩ := by
      show lookupTimer id s.timers = _
      rw [h3, lookupTimer_map, he]
      rfl
    rw [timerFire_armed_eq _ id _ ht]

theorem stop_leaves_pending_until_timeout_witness :
    (stop twoPendingState).st = { twoPendingState with client := none }
    ∧ (stop twoPendingState).outs = []
    ∧ onClose (stop twoPendingState).st 7
        = ⟨{ twoPendingState with client := none }, [], []⟩
    ∧ (onClose (stop twoPendingState).st 7).st.pending = twoPendingState.pending
    ∧ (onClose (stop twoPendingState).st 7).st.timers = twoPendingState.timers
    ∧ (timerFire (onClose (stop twoPendingState).st 7).st (mkId 1)).outs
        = [Outcome.timedOut (mkId 1) ("Request timeout: " ++ "layer.list")] := by
  have h := stop_leaves_pending_until_timeout twoPendingState ⟨7, 1⟩ twoPendingState_WF rfl
  exact ⟨h.1, h.2.1, h.2.2.1, h.2.2.2.1, h.2.2.2.2.1,
    h.2.2.2.2.2 (mkId 1) ⟨"layer.list"⟩ (by simp [twoPendingState, lookupKey])⟩

end PsBridge
